import Mathlib

/-!
Verification of the Metanoia EBM management client (frame codecs, OID codec,
bootloader exchange engine, operational reactor, firmware pack decoder).

Modelling conventions, shared by every definition below:

* Bytes are natural numbers; the Go types (uint8, uint16, uint32) guarantee
  bounds which appear here either as explicit reductions modulo 256 / 2^16 /
  2^32 inside the encoders, or as hypotheses of the theorems.
* Go functions returning (T, error) become GoResult: ok carries the value,
  err carries the error text, and panics records a Go runtime panic (index or
  slice out of range, nil dereference, failed type assertion).
* Go slices are modelled as lists whose capacity equals their length, so a
  slice expression reaching beyond the data is a panic.  (The source sometimes
  hands parsers subslices of larger receive buffers, in which case the same
  out-of-range slice would instead silently pick up stale buffer bytes; for
  the claims settled here either behaviour refutes or confirms identically.)
* The stateful reactor and the retrying bootloader exchange are embedded as
  step functions over explicit state, driven by an event or by a script of
  read outcomes supplied by the environment.
-/

set_option maxRecDepth 4000

inductive GoResult (α : Type) where
  | ok : α → GoResult α
  | err : String → GoResult α
  | panics : GoResult α
deriving DecidableEq, Repr

def GoResult.isOk {α : Type} : GoResult α → Bool
  | .ok _ => true
  | _ => false

def GoResult.isErr {α : Type} : GoResult α → Bool
  | .err _ => true
  | _ => false

def GoResult.getD {α : Type} : GoResult α → α → α
  | .ok a, _ => a
  | _, d => d

/-- Big-endian encoding of a 16-bit word, as in encoding/binary BigEndian. -/
def be16 (n : Nat) : List Nat := [n / 256 % 256, n % 256]

/-- Big-endian encoding of a 32-bit word, as in encoding/binary BigEndian. -/
def be32 (n : Nat) : List Nat :=
  [n / 16777216 % 256, n / 65536 % 256, n / 256 % 256, n % 256]

/-- Big-endian read of a byte list, as in binary.BigEndian.Uint16/Uint32. -/
def beU (bs : List Nat) : Nat := bs.foldl (fun a b => a * 256 + b) 0

namespace ebm

/-- Message is the generic structure used by every EBM command and event
(operational protocol).  The Go field Type is rendered Ty because Type is a
reserved word in Lean. -/
structure Message where
  Ty : Nat
  SequenceNumber : Nat
  Status : Nat
  Payload : List Nat
deriving DecidableEq, Repr

/-- Wire bytes produced by Message.MarshalBinary: type byte, 32-bit sequence
number, 16-bit payload length, status byte, payload, zero-padded to at least
46 bytes. -/
def Message.wire (m : Message) : List Nat :=
  let core := [m.Ty % 256] ++ be32 m.SequenceNumber ++ be16 m.Payload.length
    ++ [m.Status % 256] ++ m.Payload
  core ++ List.replicate (46 - core.length) 0

/-- Message.MarshalBinary from the source: it has no error return path (all
writes go to an in-memory buffer), so it always succeeds. -/
def Message.MarshalBinary (m : Message) : GoResult (List Nat) :=
  .ok m.wire

/-- ParseMessage from the source.  The length guard in the source is
len(data) < 7 although the fixed header occupies 8 bytes; reading the status
byte data[7] and slicing the payload data[8 : payloadLen+8] are Go index and
slice expressions that panic when out of range.  The index payloadLen+8 is
computed in uint16 arithmetic, hence the reduction modulo 65536. -/
def ParseMessage (data : List Nat) : GoResult Message :=
  if data.length < 7 then .err "too short message"
  else
    let ty := data.getD 0 0
    let seq := beU ((data.drop 1).take 4)
    let payloadLen := beU ((data.drop 5).take 2)
    if data.length ≤ 7 then .panics
    else
      let st := data.getD 7 0
      let hi := (payloadLen + 8) % 65536
      if hi < 8 ∨ data.length < hi then .panics
      else .ok { Ty := ty, SequenceNumber := seq, Status := st,
                 Payload := (data.drop 8).take (hi - 8) }

end ebm

namespace bootloader

/-- Bootloader protocol message (package bootloader in the source). -/
structure message where
  SequenceNumber : Nat
  Ty : Nat
  Payload : List Nat
deriving DecidableEq, Repr

/-- message.MarshalBinary from the source: rejects payloads that do not fit
the 16-bit length field, otherwise writes sequence number, payload length and
type as big-endian 16-bit words followed by the payload, zero-padded to at
least 46 bytes. -/
def message.MarshalBinary (m : message) : GoResult (List Nat) :=
  if 65535 < m.Payload.length then .err "payload larger than 2^16, invalid"
  else
    let core := be16 m.SequenceNumber ++ be16 m.Payload.length ++ be16 m.Ty
      ++ m.Payload
    .ok (core ++ List.replicate (46 - core.length) 0)

/-- parseMessage from the source: 6-byte header of three big-endian 16-bit
words, then the payload slice data[6 : payloadLen+6] whose upper index is
computed in uint16 arithmetic and panics when out of range. -/
def parseMessage (data : List Nat) : GoResult message :=
  if data.length < 6 then .err "too short message"
  else
    let seq := beU (data.take 2)
    let payloadLen := beU ((data.drop 2).take 2)
    let ty := beU ((data.drop 4).take 2)
    let hi := (payloadLen + 6) % 65536
    if hi < 6 ∨ data.length < hi then .panics
    else .ok { SequenceNumber := seq, Ty := ty,
               Payload := (data.drop 6).take (hi - 6) }

end bootloader

namespace ebm

/-- Type tags of the OID codec, from the source constants. -/
def TypeUint32 : Nat := 0
def TypeInt32 : Nat := 1
def TypeUint16 : Nat := 2
def TypeInt16 : Nat := 3
def TypeUint8 : Nat := 4
def TypeInt8 : Nat := 5
def TypeString : Nat := 6
def TypeBool : Nat := 7
def TypeInvalid : Nat := 8

/-- OID from the source: three 32-bit identifiers, a length counted in
elements, a byte offset, an element type tag and an access-mode tag.  The Go
field Type is rendered Ty (Type is reserved in Lean) and the identifier field
OID is rendered Ids (it would shadow the structure name). -/
structure OID where
  Ids : Nat × Nat × Nat
  Length : Nat
  Offset : Nat
  Ty : Nat
  AccessModes : Nat
deriving DecidableEq, Repr

/-- Bounds carried by the Go uint32 fields of an OID. -/
def OID.WF (o : OID) : Prop :=
  o.Ids.1 < 4294967296 ∧ o.Ids.2.1 < 4294967296 ∧ o.Ids.2.2 < 4294967296 ∧
  o.Length < 4294967296 ∧ o.Offset < 4294967296 ∧ o.Ty < 4294967296

instance (o : OID) : Decidable o.WF := by
  unfold OID.WF; infer_instance

/-- Wire bytes written for the oidRequest header struct by binary.Write: the
six fields OID[0], OID[1], OID[2], Offset, Length, Type in declaration order,
each as a big-endian 32-bit word — 24 bytes in total. -/
def oidRequestBytes (o : OID) : List Nat :=
  be32 o.Ids.1 ++ be32 o.Ids.2.1 ++ be32 o.Ids.2.2 ++ be32 o.Offset
    ++ be32 o.Length ++ be32 o.Ty

/-- OID.MarshalBinary from the source: writes the oidRequest header with no
value payload.  binary.Write into a bytes.Buffer with a fixed-size struct
cannot fail, so the error return is always nil. -/
def OID.MarshalBinary (o : OID) : GoResult (List Nat) :=
  .ok (oidRequestBytes o)

/-- Dynamically typed OID values (Go any), restricted to the types the codec
traffics in.  Strings are carried as their byte lists. -/
inductive GoVal where
  | u32 (v : Nat)
  | u16 (v : Nat)
  | u8 (v : Nat)
  | bytes (bs : List Nat)
  | str (s : List Nat)
  | boolean (b : Bool)
deriving DecidableEq, Repr

/-- MarshalOID from the source: header then the value payload, switched on
the declared type tag.  A Go type assertion val.(T) that fails is a runtime
panic; the uint8 arm uses a type switch with an error default instead, and
unknown type tags are an error. -/
def MarshalOID (o : OID) (val : GoVal) : GoResult (List Nat) :=
  let hdr := oidRequestBytes o
  if o.Ty = TypeUint32 then
    match val with
    | .u32 v => .ok (hdr ++ be32 v)
    | _ => .panics
  else if o.Ty = TypeUint16 then
    match val with
    | .u16 v => .ok (hdr ++ be16 v)
    | _ => .panics
  else if o.Ty = TypeUint8 then
    match val with
    | .u8 v => .ok (hdr ++ [v])
    | .bytes bs => .ok (hdr ++ bs)
    | _ => .err "invalid type for uint8 oid"
  else if o.Ty = TypeString then
    match val with
    | .str s => .ok (hdr ++ s ++ List.replicate (o.Length - s.length) 0)
    | _ => .panics
  else if o.Ty = TypeBool then
    match val with
    | .boolean b => .ok (hdr ++ [if b then 1 else 0])
    | _ => .panics
  else .err "unknown type"

/-- Trailing NUL and space trimming performed by strings.TrimRight with the
cutset of a NUL byte and a space. -/
def trimRightNulSpace (s : List Nat) : List Nat :=
  (s.reverse.dropWhile (fun b => b == 0 || b == 32)).reverse

/-- Value decoding arm of ParseOID, switched on the type tag and length read
from the wire header.  Index and slice expressions on the payload panic when
out of range.  The uint16 arm reads a full 32-bit word, exactly as the
source does. -/
def parseOIDValue (ty len : Nat) (payload : List Nat) : GoResult GoVal :=
  if ty = TypeUint32 then
    if payload.length < 4 then .panics else .ok (.u32 (beU (payload.take 4)))
  else if ty = TypeUint16 then
    if payload.length < 4 then .panics else .ok (.u32 (beU (payload.take 4)))
  else if ty = TypeUint8 then
    if len = 1 then
      if payload.length = 0 then .panics else .ok (.u8 (payload.getD 0 0))
    else
      if payload.length < len then .panics else .ok (.bytes (payload.take len))
  else if ty = TypeString then
    if payload.length < len then .panics
    else .ok (.str (trimRightNulSpace (payload.take len)))
  else if ty = TypeBool then
    if payload.length = 0 then .panics
    else .ok (.boolean (payload.getD 0 0 == 1))
  else .err "unknown type"

/-- ParseOID from the source: binary.Read of the 24-byte oidRequest header
(EOF on an empty input, unexpected EOF on a short one), then the value arm on
the remaining payload. -/
def ParseOID (d : List Nat) : GoResult GoVal :=
  if d.length < 24 then .err (if d.length = 0 then "EOF" else "unexpected EOF")
  else
    let reqLength := beU ((d.drop 16).take 4)
    let reqTy := beU ((d.drop 20).take 4)
    parseOIDValue reqTy reqLength (d.drop 24)

/-- Composition parse-after-marshal used by the round-trip law. -/
def oidRoundtrip (o : OID) (v : GoVal) : GoResult GoVal :=
  match MarshalOID o v with
  | .ok bs => ParseOID bs
  | .err e => .err e
  | .panics => .panics

/-- Constructor used for all the read-only uint32 OIDs in the source. -/
def newOIDUint32 (a b c : Nat) : OID :=
  { Ids := (a, b, c), Length := 1, Offset := 0, Ty := TypeUint32,
    AccessModes := 0 }

/-- Constructor used for the uint16 OIDs in the source. -/
def newOIDUint16 (a b c : Nat) : OID :=
  { Ids := (a, b, c), Length := 1, Offset := 0, Ty := TypeUint16,
    AccessModes := 0 }

/-- OidTicks from the source, the OID with identifiers (11, 21, 0). -/
def OidTicks : OID := newOIDUint32 11 21 0

/-- OidPowerUpstream from the source, a uint16 OID. -/
def OidPowerUpstream : OID := newOIDUint16 10 9 9

end ebm

namespace ebm

/-- Events the reactor selects on: a frame handed over by the receiver, the
receiver closing the frame queue on read error, a caller-submitted request
(sendOk tells whether the socket write succeeds), and the retransmission
timer firing (again with the socket write outcome). -/
inductive REvent where
  | rx (data : List Nat)
  | rxClosed
  | submit (req : Message) (sendOk : Bool)
  | timerFire (sendOk : Bool)
deriving DecidableEq, Repr

/-- Observable effects of one reactor step: bytes written to the socket,
a delivery on the response channel (none models the nil delivered on marshal
or send failure), closing either channel, and log-sink output. -/
inductive ROut where
  | sentFrame (bs : List Nat)
  | deliver (m : Option Message)
  | reqChanClosed
  | resChanClosed
  | logged
deriving DecidableEq, Repr

/-- Mutable session state owned by the reactor: the sequence counter, the
in-flight request and whether the retransmission timer is armed. -/
structure RState where
  seqNo : Nat
  curReq : Option Message
  timerArmed : Bool
deriving DecidableEq, Repr

/-- Reactor-relevant part of the state NewConn builds: the sequence counter
starts at 2, no request is in flight, the timer is stopped. -/
def newConnState : RState :=
  { seqNo := 2, curReq := none, timerArmed := false }

/-- One iteration of the reactor select loop, translated case by case from
the source.  On a received frame that fails to parse, the source logs and
then switches on the nil result, dereferencing it: a panic.  On a received
LoggerOutput frame, bytes 20..22 and (for log types 1 and 4) 24..28 of the
payload are sliced, panicking when out of range.  On an unmatched response
type with a request in flight it warns on sequence mismatch but still
delivers.  On submit, the request is stamped with the current counter;
only after a successful socket write is the counter incremented, the request
recorded in flight and the timer armed.  On timer fire the in-flight request
is re-marshalled and resent without touching the counter. -/
def reactorStep (s : RState) (e : REvent) : GoResult (RState × List ROut) :=
  match e with
  | .rxClosed => .ok (s, [.resChanClosed])
  | .rx data =>
    match ParseMessage data with
    | .err _ => .panics
    | .panics => .panics
    | .ok res =>
      if res.Ty = 0x60 then .ok (s, [.logged])
      else if res.Ty = 0x61 then
        if res.Payload.length < 22 then .panics
        else
          let logType := beU ((res.Payload.drop 20).take 2)
          if logType = 1 ∨ logType = 4 then
            if res.Payload.length < 28 then .panics else .ok (s, [.logged])
          else .ok (s, [.logged])
      else if res.Ty = 0x70 then .ok (s, [.reqChanClosed])
      else
        match s.curReq with
        | none => .ok (s, [.logged])
        | some cur =>
          let outs := if cur.SequenceNumber ≠ res.SequenceNumber
            then [ROut.logged, .deliver (some res)]
            else [.deliver (some res)]
          .ok ({ s with curReq := none, timerArmed := false }, outs)
  | .submit req sendOk =>
    let req2 := { req with SequenceNumber := s.seqNo }
    match Message.MarshalBinary req2 with
    | .ok raw =>
      if sendOk then
        .ok ({ seqNo := (s.seqNo + 1) % 4294967296, curReq := some req2,
               timerArmed := true }, [.sentFrame raw])
      else .ok (s, [.deliver none])
    | _ => .ok (s, [.deliver none])
  | .timerFire sendOk =>
    match s.curReq with
    | none => .panics
    | some r =>
      match Message.MarshalBinary r with
      | .ok raw =>
        if sendOk then .ok ({ s with timerArmed := true }, [.sentFrame raw])
        else .ok (s, [.deliver none])
      | _ => .ok (s, [.deliver none])

end ebm

/-- Demonstration request used by concrete witnesses. -/
def ebm.demoRequest : ebm.Message :=
  { Ty := 6, SequenceNumber := 5, Status := 255, Payload := [1, 2, 3] }

namespace bootloader

/-- Outcome of one blocking read with a 1-second deadline inside the
bootloader exchange loop: deadline expiry, a received frame, or another
read error. -/
inductive ReadOutcome where
  | timeout
  | frame (bs : List Nat)
  | readErr
deriving DecidableEq, Repr

/-- Observable actions of the exchange loop, in order: each socket write
and how the following read ended. -/
inductive Action where
  | send
  | recvTimeout
  | recvMismatch
  | recvOk
  | recvParseFail
  | recvReadFail
deriving DecidableEq, Repr

/-- The for-loop of conn.Exchange, translated from the source: up to the
given number of attempts, each attempt sends the marshalled request and
reads once (the script supplies outcomes; an exhausted script reads as a
timeout).  A deadline expiry continues with the next attempt (resending);
a read error or parse failure returns that error; a parsed response with a
sequence number different from the request's is dropped and - as the
source's continue statement does - the loop moves to the next attempt,
sending again; a matching response is returned.  After the final attempt
the no-response error is returned. -/
def exchangeAttempts (reqSeq : Nat) :
    List ReadOutcome → Nat → List Action × GoResult message
  | _, 0 => ([], .err "no response after 5 tries")
  | reads, n + 1 =>
    let o := reads.headD .timeout
    let rest := reads.tail
    match o with
    | .timeout =>
      let r := exchangeAttempts reqSeq rest n
      (.send :: .recvTimeout :: r.1, r.2)
    | .readErr => ([.send, .recvReadFail], .err "error reading response")
    | .frame bs =>
      match parseMessage bs with
      | .err _ => ([.send, .recvParseFail], .err "error parsing response")
      | .panics => ([.send], .panics)
      | .ok res =>
        if res.SequenceNumber = reqSeq then ([.send, .recvOk], .ok res)
        else
          let r := exchangeAttempts reqSeq rest n
          (.send :: .recvMismatch :: r.1, r.2)

/-- conn.Exchange from the source: the request is stamped with the current
16-bit sequence counter (which the caller then increments), marshalled once,
and the attempt loop runs 5 times. -/
def ExchangeRun (req : message) (seqNo : Nat) (reads : List ReadOutcome) :
    List Action × GoResult message :=
  let req2 := { req with SequenceNumber := seqNo }
  match req2.MarshalBinary with
  | .ok _ => exchangeAttempts seqNo reads 5
  | .err e => ([], .err e)
  | .panics => ([], .panics)

end bootloader

/-- Occurrence count of an action in a trace. -/
def bootloader.countAct (a : bootloader.Action) : List bootloader.Action → Nat
  | [] => 0
  | x :: xs => (if x = a then 1 else 0) + bootloader.countAct a xs

namespace fwutil

/-- The record walk of the firmware decoder, translated from the source's
pointer loop: while at least 8 bytes remain, read the 8-byte prologue; stop
on the sentinel address 0xffeeddcc; take the record size as 4 times byte 7
of the prologue (the source reads record[7] only, not the full 32-bit
word-length field); slice out that many data bytes (out of range panics)
and emit (address, data).  The fuel argument only bounds the recursion; one
unit per record suffices and the entry point below supplies more. -/
def walkFrom (fwData : List Nat) : Nat → Nat → GoResult (List (Nat × List Nat))
  | 0, _ => .ok []
  | fuel + 1, ptr =>
    if fwData.length < ptr + 8 then .ok []
    else
      let record := (fwData.drop ptr).take 8
      let addr := beU (record.take 4)
      if addr = 0xffeeddcc then .ok []
      else
        let recordSize := record.getD 7 0 * 4
        if fwData.length < ptr + 8 + recordSize then .panics
        else
          let data := (fwData.drop (ptr + 8)).take recordSize
          match walkFrom fwData fuel (ptr + 8 + recordSize) with
          | .ok rest => .ok ((addr, data) :: rest)
          | .err e => .err e
          | .panics => .panics

/-- Entry point of the record walk over a decoded firmware buffer. -/
def walkRecords (fwData : List Nat) : GoResult (List (Nat × List Nat)) :=
  walkFrom fwData (fwData.length + 1) 0

/-- Record stream of a decoded firmware buffer as the specification reads
it (the comparison definition for the walk): address, full 32-bit
word-length, and 4 times word-length data bytes per record, until the
sentinel address or the end of the buffer. -/
def specRecords : List Nat → Nat → List (Nat × Nat × List Nat)
  | _, 0 => []
  | b, fuel + 1 =>
    if b.length < 8 then []
    else
      let addr := beU (b.take 4)
      if addr = 0xffeeddcc then []
      else
        let wordLen := beU ((b.drop 4).take 4)
        (addr, wordLen, (b.drop 8).take (4 * wordLen)) ::
          specRecords (b.drop (8 + 4 * wordLen)) fuel

/-- A source firmware record: address, the four bytes of the word-length
field (bytes 4..7 of the prologue), and data. -/
structure FwRec where
  addr : Nat
  len4 : Nat
  len5 : Nat
  len6 : Nat
  len7 : Nat
  data : List Nat
deriving DecidableEq, Repr

/-- The 32-bit word-length field of a record as the specification reads
it. -/
def FwRec.wordLen (r : FwRec) : Nat := beU [r.len4, r.len5, r.len6, r.len7]

/-- Byte encoding of a record in the decoded firmware buffer. -/
def encRec (r : FwRec) : List Nat :=
  be32 r.addr ++ [r.len4, r.len5, r.len6, r.len7] ++ r.data

/-- Byte encoding of a record sequence. -/
def encRecs : List FwRec → List Nat
  | [] => []
  | r :: rs => encRec r ++ encRecs rs

/-- What the walk needs of a record to consume it without desynchronising
or panicking: an in-range non-sentinel address, byte-sized field bytes and
data of exactly 4 times the low byte of the word-length field (which is all
the walk reads). -/
def FwRec.WF (r : FwRec) : Prop :=
  r.addr < 4294967296 ∧ r.addr ≠ 0xffeeddcc ∧
  r.data.length = r.len7 * 4

instance (r : FwRec) : Decidable r.WF := by
  unfold FwRec.WF; infer_instance

/-- A record well formed for the decoder in the sense of the amended claim:
bytes 4..6 of the prologue zero, so the 32-bit word-length field is the
single byte the walk reads and the record stream stays in sync. -/
def FwRec.Zeroed (r : FwRec) : Prop :=
  r.len4 = 0 ∧ r.len5 = 0 ∧ r.len6 = 0 ∧ r.len7 < 256

instance (r : FwRec) : Decidable r.Zeroed := by
  unfold FwRec.Zeroed; infer_instance

/-- The sentinel prologue closing a record stream: the sentinel address and
four ignored bytes. -/
def sentinelBlock (junk : List Nat) : List Nat :=
  [0xff, 0xee, 0xdd, 0xcc] ++ junk

/-- The all-zero record: address 0, zero word-length field, no data. -/
def zeroRec : FwRec :=
  { addr := 0, len4 := 0, len5 := 0, len6 := 0, len7 := 0, data := [] }

/-- Firmware buffer with one source record whose 32-bit word-length field
is 256 (prologue bytes 4..7 are 0,0,1,0) and 1024 data bytes (all zero)
before the sentinel prologue. -/
def cexRecs : List FwRec :=
  { addr := 268435456, len4 := 0, len5 := 0, len6 := 1, len7 := 0, data := [] }
    :: List.replicate 128 zeroRec

/-- The counterexample buffer for the walk: the view the walk takes of a
buffer holding one source record of word-length 256 with 1024 zero data
bytes, then the sentinel. -/
def cexBuf : List Nat :=
  encRecs cexRecs ++ (sentinelBlock [0, 0, 0, 0] ++ [])

/-- Firmware count read from bytes 4..8 of the pack header. -/
def numberOfFirmwares (header : List Nat) : Nat :=
  beU ((header.drop 4).take 4)

/-- The header-capacity check of the pack decoder, from the source:
numberOfFirmwares*32 >= uint32(len(header)), with the product computed in
32-bit wrapping arithmetic. -/
def tooManyFirmwares (header : List Nat) : Bool :=
  decide ((header.length % 4294967296) ≤
    (numberOfFirmwares header * 32) % 4294967296)

/-- Header with valid container signature (bytes 0..4) and version (bytes
16..20) whose firmware count field (bytes 4..8) is 2^27. -/
def cexHeader : List Nat :=
  [97, 35, 35, 33] ++ [8, 0, 0, 0] ++ List.replicate 8 0 ++ [0, 2, 0, 0]
    ++ List.replicate 492 0

end fwutil

theorem beU_be16 (n : Nat) : beU (be16 n) = n % 65536 := by
  simp only [be16, beU, List.foldl]
  omega

theorem beU_be32 (n : Nat) : beU (be32 n) = n % 4294967296 := by
  simp only [be32, beU, List.foldl]
  omega

theorem be16_length (n : Nat) : (be16 n).length = 2 := rfl

theorem be32_length (n : Nat) : (be32 n).length = 4 := rfl

/-- C1: the claim states that for every input, frame decode of both header
shapes fails with a TooShort error below the fixed header size (8 bytes
operational, 6 bytes bootloader) and with a TruncatedPayload error when the
declared payload overruns the input, never succeeding or crashing.  The code
does neither: the operational parser guards len(data) < 7 although its header
is 8 bytes, so the 7-byte input below reaches the read of data[7] and panics;
and neither parser checks the declared payload length against the input, so a
truncated payload panics in the payload slice expression (here a 6-byte
bootloader frame declaring 2 payload bytes).  Inputs strictly below the
guards do produce the too-short error. -/
theorem C1_frame_decode_crashes :
  ebm.ParseMessage [6, 0, 0, 0, 42, 0, 0] = .panics ∧
  bootloader.parseMessage [0, 1, 0, 2, 0, 20] = .panics ∧
  ebm.ParseMessage [6, 0, 0, 0, 42, 0] = .err "too short message" ∧
  bootloader.parseMessage [0, 1, 0, 2, 0] = .err "too short message" := by
  refine ⟨?_, ?_, rfl, rfl⟩ <;> rfl

/-- Reading back the 24-byte header written by the marshaller recovers the
length and type fields and leaves exactly the value payload. -/
theorem ebm.parseOID_split (o : ebm.OID) (tail : List Nat)
    (hL : o.Length < 4294967296) (hT : o.Ty < 4294967296) :
    ebm.ParseOID (ebm.oidRequestBytes o ++ tail)
      = ebm.parseOIDValue o.Ty o.Length tail := by
  have hlen : ¬ (ebm.oidRequestBytes o ++ tail).length < 24 := by
    simp [ebm.oidRequestBytes, be32]
  unfold ebm.ParseOID
  rw [if_neg hlen]
  have h1 : ((ebm.oidRequestBytes o ++ tail).drop 16).take 4 = be32 o.Length := rfl
  have h2 : ((ebm.oidRequestBytes o ++ tail).drop 20).take 4 = be32 o.Ty := rfl
  have h3 : (ebm.oidRequestBytes o ++ tail).drop 24 = tail := rfl
  rw [h1, h2, h3, beU_be32, beU_be32, Nat.mod_eq_of_lt hL, Nat.mod_eq_of_lt hT]

/-- C2 counterexample: the claim says marshalling an OID without a value
yields the 8-word, 32-byte wire form, and that the OID with identifiers
(11, 21, 0), length 1, type uint32 marshals to exactly 32 bytes.  The
marshaller writes only the six struct fields — identifiers, offset, length,
type — so that OID (OidTicks in the source) marshals to 24 bytes, not 32;
no reserved word is written. -/
theorem C2_cex :
  ebm.OID.MarshalBinary ebm.OidTicks =
    .ok [0, 0, 0, 11, 0, 0, 0, 21, 0, 0, 0, 0,
         0, 0, 0, 0, 0, 0, 0, 1, 0, 0, 0, 0] ∧
  ([0, 0, 0, 11, 0, 0, 0, 21, 0, 0, 0, 0,
    0, 0, 0, 0, 0, 0, 0, 1, 0, 0, 0, 0] : List Nat).length ≠ 32 := by
  exact ⟨rfl, by decide⟩

/-- C2 amended: for every OID, marshalling it without a value produces the
6-word (24-byte) big-endian wire form — three identifier words, offset,
length, type-as-uint32, with no reserved word; in particular the OID with
identifiers (11, 21, 0), length 1, type uint32 marshals to exactly 24 bytes,
the words 11, 21, 0, 0, 1, 0. -/
theorem C2_oid_wire_form :
  (∀ o : ebm.OID,
      ebm.OID.MarshalBinary o =
        .ok (be32 o.Ids.1 ++ be32 o.Ids.2.1 ++ be32 o.Ids.2.2
          ++ be32 o.Offset ++ be32 o.Length ++ be32 o.Ty) ∧
      (ebm.oidRequestBytes o).length = 24) ∧
  ebm.OID.MarshalBinary ebm.OidTicks =
    .ok [0, 0, 0, 11, 0, 0, 0, 21, 0, 0, 0, 0,
         0, 0, 0, 0, 0, 0, 0, 1, 0, 0, 0, 0] := by
  refine ⟨fun o => ⟨rfl, ?_⟩, rfl⟩
  simp [ebm.oidRequestBytes, be32]

/-- C3 counterexample: the claim says every input shorter than 32 bytes must
fail to parse as an OID read response.  The header the parser actually reads
is 24 bytes, so this 24-byte input — type tag uint8, length 0 — parses
successfully to an empty byte array. -/
theorem C3_cex :
  (List.replicate 16 0 ++ [0, 0, 0, 0] ++ [0, 0, 0, 4]).length = 24 ∧
  ebm.ParseOID (List.replicate 16 0 ++ [0, 0, 0, 0] ++ [0, 0, 0, 4])
    = .ok (.bytes []) := by
  exact ⟨by decide, rfl⟩

/-- C3 amended: every input shorter than 24 bytes — the size of the wire
header the parser reads — fails to parse with a read error (EOF on an empty
input, unexpected EOF otherwise), never returning a decoded value. -/
theorem C3_short_oid_parse (d : List Nat) (h : d.length < 24) :
  ebm.ParseOID d = .err (if d.length = 0 then "EOF" else "unexpected EOF") := by
  unfold ebm.ParseOID
  rw [if_pos h]

/-- C3 witness: the amended theorem applied to a concrete 3-byte input. -/
theorem C3_short_oid_parse_witness :
  ebm.ParseOID [1, 2, 3] = .err "unexpected EOF" :=
  C3_short_oid_parse [1, 2, 3] (by decide)

/-- Zero padding appended by the string marshaller disappears under the
parser's trailing NUL-and-space trimming. -/
theorem ebm.trimRight_append_zeros (s : List Nat) (k : Nat) :
  ebm.trimRightNulSpace (s ++ List.replicate k 0) = ebm.trimRightNulSpace s := by
  unfold ebm.trimRightNulSpace
  rw [List.reverse_append, List.reverse_replicate]
  congr 1
  induction k with
  | zero => simp
  | succ n ih =>
      rw [List.replicate_succ, List.cons_append, List.dropWhile_cons]
      simp only [Nat.zero_eq, beq_self_eq_true, Bool.true_or, if_pos]
      exact ih

/-- C4 counterexample: the claim says parse-after-marshal returns the value
for every type-compatible value, with uint16 values coming back widened to a
32-bit integer.  For a uint16 OID (OidPowerUpstream in the source) the
marshaller writes a 2-byte payload but the parser reads a 4-byte word, so
the round trip panics on an out-of-range slice instead of returning the
value in any width. -/
theorem C4_cex :
  ebm.oidRoundtrip ebm.OidPowerUpstream (.u16 5) = .panics ∧
  ebm.oidRoundtrip ebm.OidPowerUpstream (.u16 5) ≠ .ok (.u32 5) ∧
  ebm.oidRoundtrip ebm.OidPowerUpstream (.u16 5) ≠ .ok (.u16 5) := by
  refine ⟨rfl, by decide, by decide⟩

/-- C4 amended: parse-after-marshal returns a value equal to the marshalled
one for uint32 values, uint8 scalars (length 1), uint8 arrays whose length
equals the declared length (declared length not 1), strings no longer than
the declared length (up to trimming of trailing NULs and spaces), and bools;
for uint16 the parser reads a 32-bit word where the marshaller wrote 2
bytes, so the round trip panics instead of returning the widened value. -/
theorem C4_oid_roundtrip :
  (∀ (o : ebm.OID) (v : Nat), ebm.OID.WF o → o.Ty = ebm.TypeUint32 →
      v < 4294967296 → ebm.oidRoundtrip o (.u32 v) = .ok (.u32 v)) ∧
  (∀ (o : ebm.OID) (v : Nat), ebm.OID.WF o → o.Ty = ebm.TypeUint8 →
      o.Length = 1 → v < 256 → ebm.oidRoundtrip o (.u8 v) = .ok (.u8 v)) ∧
  (∀ (o : ebm.OID) (bs : List Nat), ebm.OID.WF o → o.Ty = ebm.TypeUint8 →
      o.Length ≠ 1 → bs.length = o.Length →
      ebm.oidRoundtrip o (.bytes bs) = .ok (.bytes bs)) ∧
  (∀ (o : ebm.OID) (s : List Nat), ebm.OID.WF o → o.Ty = ebm.TypeString →
      s.length ≤ o.Length →
      ebm.oidRoundtrip o (.str s) = .ok (.str (ebm.trimRightNulSpace s))) ∧
  (∀ (o : ebm.OID) (b : Bool), ebm.OID.WF o → o.Ty = ebm.TypeBool →
      ebm.oidRoundtrip o (.boolean b) = .ok (.boolean b)) ∧
  (∀ (o : ebm.OID) (v : Nat), ebm.OID.WF o → o.Ty = ebm.TypeUint16 →
      ebm.oidRoundtrip o (.u16 v) = .panics) := by
  refine ⟨?_, ?_, ?_, ?_, ?_, ?_⟩
  · intro o v hWF hT hv
    have hs := ebm.parseOID_split o (be32 v) hWF.2.2.2.1 hWF.2.2.2.2.2
    calc ebm.oidRoundtrip o (.u32 v)
        = ebm.ParseOID (ebm.oidRequestBytes o ++ be32 v) := by
          simp [ebm.oidRoundtrip, ebm.MarshalOID, hT]
      _ = ebm.parseOIDValue o.Ty o.Length (be32 v) := hs
      _ = .ok (.u32 v) := by
          rw [hT, ebm.parseOIDValue]
          rw [if_pos rfl, if_neg (by simp [be32])]
          rw [show (be32 v).take 4 = be32 v from by
            rw [← be32_length v]; exact List.take_length _]
          rw [beU_be32, Nat.mod_eq_of_lt hv]
  · intro o v hWF hT hL hv
    have hs := ebm.parseOID_split o [v] hWF.2.2.2.1 hWF.2.2.2.2.2
    calc ebm.oidRoundtrip o (.u8 v)
        = ebm.ParseOID (ebm.oidRequestBytes o ++ [v]) := by
          simp [ebm.oidRoundtrip, ebm.MarshalOID, hT, ebm.TypeUint8,
            ebm.TypeUint32, ebm.TypeUint16]
      _ = ebm.parseOIDValue o.Ty o.Length [v] := hs
      _ = .ok (.u8 v) := by
          simp [hT, hL, ebm.parseOIDValue, ebm.TypeUint8, ebm.TypeUint32,
            ebm.TypeUint16]
  · intro o bs hWF hT hL hbs
    have hs := ebm.parseOID_split o bs hWF.2.2.2.1 hWF.2.2.2.2.2
    calc ebm.oidRoundtrip o (.bytes bs)
        = ebm.ParseOID (ebm.oidRequestBytes o ++ bs) := by
          simp [ebm.oidRoundtrip, ebm.MarshalOID, hT, ebm.TypeUint8,
            ebm.TypeUint32, ebm.TypeUint16]
      _ = ebm.parseOIDValue o.Ty o.Length bs := hs
      _ = .ok (.bytes bs) := by
          rw [hT, ebm.parseOIDValue]
          rw [if_neg (by decide), if_neg (by decide), if_pos rfl]
          rw [if_neg hL, if_neg (by omega), ← hbs, List.take_length]
  · intro o s hWF hT hsl
    have hs := ebm.parseOID_split o (s ++ List.replicate (o.Length - s.length) 0)
      hWF.2.2.2.1 hWF.2.2.2.2.2
    have hpl : (s ++ List.replicate (o.Length - s.length) 0).length = o.Length := by
      simp; omega
    calc ebm.oidRoundtrip o (.str s)
        = ebm.ParseOID (ebm.oidRequestBytes o
            ++ (s ++ List.replicate (o.Length - s.length) 0)) := by
          simp [ebm.oidRoundtrip, ebm.MarshalOID, hT, ebm.TypeString,
            ebm.TypeUint32, ebm.TypeUint16, ebm.TypeUint8]
      _ = ebm.parseOIDValue o.Ty o.Length
            (s ++ List.replicate (o.Length - s.length) 0) := hs
      _ = .ok (.str (ebm.trimRightNulSpace s)) := by
          rw [hT, ebm.parseOIDValue]
          rw [if_neg (by decide), if_neg (by decide), if_neg (by decide),
            if_pos rfl, if_neg (by omega)]
          rw [List.take_of_length_le (by omega)]
          rw [ebm.trimRight_append_zeros]
  · intro o b hWF hT
    have hs := ebm.parseOID_split o [if b then 1 else 0]
      hWF.2.2.2.1 hWF.2.2.2.2.2
    calc ebm.oidRoundtrip o (.boolean b)
        = ebm.ParseOID (ebm.oidRequestBytes o ++ [if b then 1 else 0]) := by
          simp [ebm.oidRoundtrip, ebm.MarshalOID, hT, ebm.TypeBool,
            ebm.TypeUint32, ebm.TypeUint16, ebm.TypeUint8, ebm.TypeString]
      _ = ebm.parseOIDValue o.Ty o.Length [if b then 1 else 0] := hs
      _ = .ok (.boolean b) := by
          cases b <;>
            simp [hT, ebm.parseOIDValue, ebm.TypeBool, ebm.TypeUint32,
              ebm.TypeUint16, ebm.TypeUint8, ebm.TypeString]
  · intro o v hWF hT
    have hs := ebm.parseOID_split o (be16 v) hWF.2.2.2.1 hWF.2.2.2.2.2
    calc ebm.oidRoundtrip o (.u16 v)
        = ebm.ParseOID (ebm.oidRequestBytes o ++ be16 v) := by
          simp [ebm.oidRoundtrip, ebm.MarshalOID, hT, ebm.TypeUint16,
            ebm.TypeUint32]
      _ = ebm.parseOIDValue o.Ty o.Length (be16 v) := hs
      _ = .panics := by
          simp [hT, ebm.parseOIDValue, ebm.TypeUint16, ebm.TypeUint32, be16]

/-- C4 witness: the amended round trip applied to the uint32 OID OidTicks
with the value 7. -/
theorem C4_oid_roundtrip_witness :
  ebm.oidRoundtrip ebm.OidTicks (.u32 7) = .ok (.u32 7) :=
  C4_oid_roundtrip.1 ebm.OidTicks 7 (by decide) rfl (by decide)

/-- C5: in every operational session the sequence counter starts at 2; each
original request transmission is stamped with the current counter value and
is the frame actually written; the counter advances (by one, in the 32-bit
counter) exactly on original successfully-sent requests and on nothing else;
and a retransmission resends the marshalled bytes of the stored in-flight
request - the stamped message itself - so it carries the same sequence
number as the original send. -/
theorem C5_sequence_counter :
  ebm.newConnState.seqNo = 2 ∧
  (∀ (s : ebm.RState) (req : ebm.Message),
      ebm.reactorStep s (.submit req true) =
        .ok ({ seqNo := (s.seqNo + 1) % 4294967296,
               curReq := some { req with SequenceNumber := s.seqNo },
               timerArmed := true },
             [.sentFrame (ebm.Message.wire { req with SequenceNumber := s.seqNo })])) ∧
  (∀ (s : ebm.RState) (req : ebm.Message),
      ebm.reactorStep s (.submit req false) = .ok (s, [.deliver none])) ∧
  (∀ (s : ebm.RState) (r : ebm.Message), s.curReq = some r →
      ebm.reactorStep s (.timerFire true) =
        .ok ({ s with timerArmed := true }, [.sentFrame (ebm.Message.wire r)])) ∧
  (∀ (s : ebm.RState) (e : ebm.REvent) (s2 : ebm.RState) (outs : List ebm.ROut),
      ebm.reactorStep s e = .ok (s2, outs) →
      s2.seqNo = s.seqNo ∨
      ∃ req : ebm.Message, e = .submit req true ∧
        s2.seqNo = (s.seqNo + 1) % 4294967296) := by
  refine ⟨rfl, fun s req => rfl, fun s req => rfl, ?_, ?_⟩
  · intro s r hcur
    simp only [ebm.reactorStep, hcur, ebm.Message.MarshalBinary]
    rfl
  · intro s e s2 outs h
    cases e with
    | rxClosed =>
      left
      have he : ebm.reactorStep s .rxClosed = .ok (s, [.resChanClosed]) := rfl
      rw [he] at h
      simp only [GoResult.ok.injEq, Prod.mk.injEq] at h
      rw [← h.1]
    | rx data =>
      left
      simp only [ebm.reactorStep] at h
      rcases hp : ebm.ParseMessage data with res | e2 | _ <;> simp only [hp] at h
      · repeat' split at h
        all_goals first
          | exact GoResult.noConfusion h
          | (simp only [GoResult.ok.injEq, Prod.mk.injEq] at h; rw [← h.1])
      · exact GoResult.noConfusion h
      · exact GoResult.noConfusion h
    | submit req sendOk =>
      cases sendOk with
      | true =>
        right
        refine ⟨req, rfl, ?_⟩
        have he : ebm.reactorStep s (.submit req true) =
            .ok ({ seqNo := (s.seqNo + 1) % 4294967296,
                   curReq := some { req with SequenceNumber := s.seqNo },
                   timerArmed := true },
                 [.sentFrame (ebm.Message.wire { req with SequenceNumber := s.seqNo })]) := rfl
        rw [he] at h
        simp only [GoResult.ok.injEq, Prod.mk.injEq] at h
        rw [← h.1]
      | false =>
        left
        have he : ebm.reactorStep s (.submit req false) = .ok (s, [.deliver none]) := rfl
        rw [he] at h
        simp only [GoResult.ok.injEq, Prod.mk.injEq] at h
        rw [← h.1]
    | timerFire sendOk =>
      left
      simp only [ebm.reactorStep, ebm.Message.MarshalBinary] at h
      repeat' split at h
      all_goals first
        | exact GoResult.noConfusion h
        | (simp only [GoResult.ok.injEq, Prod.mk.injEq] at h; rw [← h.1])

/-- C5 witness: the counter clauses applied at concrete inputs - the fresh
connection state, a concrete submission, and a concrete retransmission. -/
theorem C5_sequence_counter_witness :
  ebm.newConnState.seqNo = 2 ∧
  ebm.reactorStep ebm.newConnState (.submit ebm.demoRequest true) =
    .ok ({ seqNo := 3,
           curReq := some { ebm.demoRequest with SequenceNumber := 2 },
           timerArmed := true },
         [.sentFrame (ebm.Message.wire { ebm.demoRequest with SequenceNumber := 2 })]) ∧
  ebm.reactorStep { seqNo := 7, curReq := some ebm.demoRequest, timerArmed := true }
      (.timerFire true) =
    .ok ({ seqNo := 7, curReq := some ebm.demoRequest, timerArmed := true },
         [.sentFrame (ebm.Message.wire ebm.demoRequest)]) :=
  ⟨C5_sequence_counter.1,
   C5_sequence_counter.2.1 ebm.newConnState ebm.demoRequest,
   C5_sequence_counter.2.2.2.1 _ ebm.demoRequest rfl⟩

/-- C9: when the receiver hands the reactor a frame the message parser
rejects (the parser returns an error exactly for inputs shorter than 7
bytes, all of which are shorter than the 8-byte header), the reactor logs
that it is ignoring the message but then switches on the nil parse result,
dereferencing it - a panic that crashes the reactor and with it the
session, instead of skipping the frame. -/
theorem C9_reactor_nil_deref (s : ebm.RState) (data : List Nat) (e : String)
    (h : ebm.ParseMessage data = .err e) :
  ebm.reactorStep s (.rx data) = .panics := by
  simp only [ebm.reactorStep, h]

/-- C9 witness: a received empty frame (rejected by the parser as too
short) crashes the reactor from any state, here the fresh one. -/
theorem C9_reactor_nil_deref_witness :
  ebm.reactorStep ebm.newConnState (.rx []) = .panics :=
  C9_reactor_nil_deref ebm.newConnState [] "too short message" rfl

/-- C6 counterexample: the claim says a response with a mismatched sequence
number is dropped and the engine resumes reading for the remainder of the
current attempt's deadline without sending again, returning TimedOut only
after the fifth unanswered send.  Feeding the exchange a single mismatched
response (sequence 2 against request sequence 1) shows the engine sending
again immediately after the drop - the action trace has a send directly
after the mismatch with no intervening deadline expiry - and failing with
the no-response error after five sends of which only four were unanswered. -/
theorem C6_cex :
  bootloader.ExchangeRun { SequenceNumber := 0, Ty := 0x11, Payload := [] } 1
      [.frame [0, 2, 0, 0, 0, 20]] =
    ([.send, .recvMismatch, .send, .recvTimeout, .send, .recvTimeout,
      .send, .recvTimeout, .send, .recvTimeout],
     .err "no response after 5 tries") ∧
  bootloader.countAct .recvTimeout
      (bootloader.ExchangeRun { SequenceNumber := 0, Ty := 0x11, Payload := [] } 1
        [.frame [0, 2, 0, 0, 0, 20]]).1 = 4 := by
  exact ⟨rfl, by decide⟩

/-- C6 amended: a mismatched response is dropped (a returned response always
carries the request's sequence number) but consumes the current attempt: the
engine immediately retransmits instead of resuming the read, and the
exchange fails with the no-response error after exactly as many sends as
attempts (five in the source), each of those sends answered by nothing
before the deadline or by a dropped mismatched response. -/
theorem C6_exchange_retries (reqSeq : Nat) :
    ∀ (n : Nat) (reads : List bootloader.ReadOutcome),
      (∀ m : bootloader.message,
        (bootloader.exchangeAttempts reqSeq reads n).2 = .ok m →
          m.SequenceNumber = reqSeq) ∧
      ((bootloader.exchangeAttempts reqSeq reads n).2 =
          .err "no response after 5 tries" →
        bootloader.countAct .send (bootloader.exchangeAttempts reqSeq reads n).1 = n ∧
        bootloader.countAct .recvTimeout (bootloader.exchangeAttempts reqSeq reads n).1 +
          bootloader.countAct .recvMismatch (bootloader.exchangeAttempts reqSeq reads n).1
          = n) := by
  intro n
  induction n with
  | zero =>
    intro reads
    exact ⟨(fun m hm => by cases hm), (fun _ => ⟨rfl, rfl⟩)⟩
  | succ k ih =>
    intro reads
    rcases ho : reads.headD .timeout with _ | bs | _
    · constructor
      · intro m hm
        have hv : (bootloader.exchangeAttempts reqSeq reads (k + 1)).2 =
            (bootloader.exchangeAttempts reqSeq reads.tail k).2 := by
          simp only [bootloader.exchangeAttempts, ho]
        exact (ih reads.tail).1 m (hv ▸ hm)
      · intro herr
        have hv : bootloader.exchangeAttempts reqSeq reads (k + 1) =
            (bootloader.Action.send :: .recvTimeout ::
              (bootloader.exchangeAttempts reqSeq reads.tail k).1,
             (bootloader.exchangeAttempts reqSeq reads.tail k).2) := by
          simp only [bootloader.exchangeAttempts, ho]
        rw [hv] at herr ⊢
        have hk := (ih reads.tail).2 herr
        simp [bootloader.countAct]
        omega
    · rcases hp : bootloader.parseMessage bs with res | e2 | _
      · by_cases hseq : res.SequenceNumber = reqSeq
        · have hv : bootloader.exchangeAttempts reqSeq reads (k + 1) =
              ([.send, .recvOk], .ok res) := by
            simp only [bootloader.exchangeAttempts, ho, hp, if_pos hseq]
          rw [hv]
          exact ⟨(fun m hm => by cases hm; exact hseq), (fun herr => by cases herr)⟩
        · have hv : bootloader.exchangeAttempts reqSeq reads (k + 1) =
              (bootloader.Action.send :: .recvMismatch ::
                (bootloader.exchangeAttempts reqSeq reads.tail k).1,
               (bootloader.exchangeAttempts reqSeq reads.tail k).2) := by
            simp only [bootloader.exchangeAttempts, ho, hp, if_neg hseq]
          rw [hv]
          constructor
          · intro m hm
            exact (ih reads.tail).1 m hm
          · intro herr
            have hk := (ih reads.tail).2 herr
            simp [bootloader.countAct]
            omega
      · have hv : bootloader.exchangeAttempts reqSeq reads (k + 1) =
            ([.send, .recvParseFail], .err "error parsing response") := by
          simp only [bootloader.exchangeAttempts, ho, hp]
        rw [hv]
        exact ⟨(fun m hm => by cases hm), (fun herr => absurd herr (by decide))⟩
      · have hv : bootloader.exchangeAttempts reqSeq reads (k + 1) =
            ([.send], .panics) := by
          simp only [bootloader.exchangeAttempts, ho, hp]
        rw [hv]
        exact ⟨(fun m hm => by cases hm), (fun herr => by cases herr)⟩
    · have hv : bootloader.exchangeAttempts reqSeq reads (k + 1) =
          ([.send, .recvReadFail], .err "error reading response") := by
        simp only [bootloader.exchangeAttempts, ho]
      rw [hv]
      exact ⟨(fun m hm => by cases hm), (fun herr => absurd herr (by decide))⟩

/-- C6 witness: the amended exchange law applied to five scripted timeouts
(five sends, five unanswered) and to a matching response (returned with the
request's sequence number). -/
theorem C6_exchange_retries_witness :
  (bootloader.countAct .send (bootloader.exchangeAttempts 1 [] 5).1 = 5 ∧
   bootloader.countAct .recvTimeout (bootloader.exchangeAttempts 1 [] 5).1 +
     bootloader.countAct .recvMismatch (bootloader.exchangeAttempts 1 [] 5).1 = 5) ∧
  ({ SequenceNumber := 1, Ty := 20, Payload := [] } : bootloader.message).SequenceNumber
    = 1 :=
  ⟨(C6_exchange_retries 1 5 []).2 (by decide),
   (C6_exchange_retries 1 5 [.frame [0, 1, 0, 0, 0, 20]]).1
     { SequenceNumber := 1, Ty := 20, Payload := [] } (by decide)⟩

/-- Each encoded record occupies at least 8 bytes. -/
theorem fwutil.encRecs_length_ge (recs : List fwutil.FwRec) :
    8 * recs.length ≤ (fwutil.encRecs recs).length := by
  induction recs with
  | nil => simp [fwutil.encRecs]
  | cons r rs ih =>
    simp only [fwutil.encRecs, fwutil.encRec, be32, List.length_append,
      List.length_cons, List.length_nil]
    simp only [List.length_cons] at ih ⊢
    omega

/-- The record walk started after a consumed prefix emits exactly the
records encoded before the sentinel block: for each record the address and
the record's data bytes, whose count is 4 times byte 7 of the word-length
field. -/
theorem fwutil.walkFrom_encRecs :
  ∀ (recs : List fwutil.FwRec) (pre junk rest : List Nat) (fuel : Nat),
    (∀ r ∈ recs, r.WF) → junk.length = 4 → recs.length < fuel →
    fwutil.walkFrom
        (pre ++ (fwutil.encRecs recs ++ (fwutil.sentinelBlock junk ++ rest)))
        fuel pre.length
      = .ok (recs.map (fun r => (r.addr, r.data))) := by
  intro recs
  induction recs with
  | nil =>
    intro pre junk rest fuel hWF hj hf
    cases fuel with
    | zero => omega
    | succ f =>
      have hdrop : (pre ++ (fwutil.encRecs [] ++ (fwutil.sentinelBlock junk ++ rest))).drop pre.length
          = 255 :: 238 :: 221 :: 204 :: (junk ++ rest) :=
        List.drop_left _ _
      have hlen : ¬ ((pre ++ (fwutil.encRecs [] ++ (fwutil.sentinelBlock junk ++ rest))).length
          < pre.length + 8) := by
        simp [fwutil.encRecs, fwutil.sentinelBlock, hj]
      simp only [fwutil.walkFrom]
      rw [if_neg hlen, hdrop]
      have htake : ((255 :: 238 :: 221 :: 204 :: (junk ++ rest)).take 8).take 4
          = [255, 238, 221, 204] := by
        simp [List.take_take]
      rw [htake]
      rw [if_pos (by norm_num [beU])]
      simp
  | cons r rs ih =>
    intro pre junk rest fuel hWF hj hf
    cases fuel with
    | zero => simp at hf
    | succ f =>
      obtain ⟨ha32, hasent, hdl⟩ := hWF r (by simp)
      have hWFrs : ∀ x ∈ rs, x.WF := fun x hx => hWF x (by simp [hx])
      have hassoc : pre ++ (fwutil.encRecs (r :: rs) ++ (fwutil.sentinelBlock junk ++ rest))
          = pre ++ (fwutil.encRec r
              ++ (fwutil.encRecs rs ++ (fwutil.sentinelBlock junk ++ rest))) := by
        simp [fwutil.encRecs, List.append_assoc]
      rw [hassoc]
      have hdrop : (pre ++ (fwutil.encRec r
            ++ (fwutil.encRecs rs ++ (fwutil.sentinelBlock junk ++ rest)))).drop pre.length
          = fwutil.encRec r ++ (fwutil.encRecs rs ++ (fwutil.sentinelBlock junk ++ rest)) :=
        List.drop_left _ _
      have hrec : ((fwutil.encRec r
            ++ (fwutil.encRecs rs ++ (fwutil.sentinelBlock junk ++ rest))).take 8)
          = be32 r.addr ++ [r.len4, r.len5, r.len6, r.len7] := by
        simp [fwutil.encRec, be32]
      have hlen1 : (pre ++ (fwutil.encRec r
            ++ (fwutil.encRecs rs ++ (fwutil.sentinelBlock junk ++ rest)))).length
          = pre.length + 8 + r.data.length
            + (fwutil.encRecs rs ++ (fwutil.sentinelBlock junk ++ rest)).length := by
        simp [fwutil.encRec, be32]
        omega
      have haddr : beU (((fwutil.encRec r
            ++ (fwutil.encRecs rs ++ (fwutil.sentinelBlock junk ++ rest))).take 8).take 4)
          = r.addr := by
        rw [hrec]
        have ht : (be32 r.addr ++ [r.len4, r.len5, r.len6, r.len7]).take 4 = be32 r.addr := by
          simp [be32]
        rw [ht, beU_be32, Nat.mod_eq_of_lt ha32]
      have hgetD : ((fwutil.encRec r
            ++ (fwutil.encRecs rs ++ (fwutil.sentinelBlock junk ++ rest))).take 8).getD 7 0
          = r.len7 := by
        rw [hrec]
        simp [be32]
      have hdrop8 : (pre ++ (fwutil.encRec r
            ++ (fwutil.encRecs rs ++ (fwutil.sentinelBlock junk ++ rest)))).drop (pre.length + 8)
          = r.data ++ (fwutil.encRecs rs ++ (fwutil.sentinelBlock junk ++ rest)) := by
        have h2 : pre ++ (fwutil.encRec r
              ++ (fwutil.encRecs rs ++ (fwutil.sentinelBlock junk ++ rest)))
            = (pre ++ (be32 r.addr ++ [r.len4, r.len5, r.len6, r.len7]))
              ++ (r.data ++ (fwutil.encRecs rs ++ (fwutil.sentinelBlock junk ++ rest))) := by
          simp [fwutil.encRec, List.append_assoc]
        have h3 : (pre ++ (be32 r.addr ++ [r.len4, r.len5, r.len6, r.len7])).length
            = pre.length + 8 := by
          simp [be32]
        rw [h2, ← h3, List.drop_left]
      have hdata : ((pre ++ (fwutil.encRec r
            ++ (fwutil.encRecs rs ++ (fwutil.sentinelBlock junk ++ rest)))).drop
              (pre.length + 8)).take (r.len7 * 4)
          = r.data := by
        rw [hdrop8, show r.len7 * 4 = r.data.length by omega]
        exact List.take_left _ _
      simp only [fwutil.walkFrom]
      rw [if_neg (by rw [hlen1]; omega)]
      rw [hdrop, haddr]
      rw [if_neg hasent]
      rw [hgetD]
      rw [if_neg (by rw [hlen1]; omega)]
      rw [hdata]
      have hptr : pre.length + 8 + r.len7 * 4 = (pre ++ fwutil.encRec r).length := by
        simp [fwutil.encRec, be32]
        omega
      have hbuf : pre ++ (fwutil.encRec r
            ++ (fwutil.encRecs rs ++ (fwutil.sentinelBlock junk ++ rest)))
          = (pre ++ fwutil.encRec r)
            ++ (fwutil.encRecs rs ++ (fwutil.sentinelBlock junk ++ rest)) := by
        simp [List.append_assoc]
      rw [hptr, hbuf]
      rw [ih (pre ++ fwutil.encRec r) junk rest f hWFrs hj (by simp at hf ⊢; omega)]
      simp

/-- A run of all-zero records encodes to a run of zero bytes. -/
theorem fwutil.encRecs_replicate_zero (k : Nat) :
    fwutil.encRecs (List.replicate k fwutil.zeroRec) = List.replicate (8 * k) 0 := by
  induction k with
  | zero => rfl
  | succ n ih =>
    rw [List.replicate_succ, fwutil.encRecs, ih]
    rw [show 8 * (n + 1) = 8 + 8 * n by ring, List.replicate_add]
    rfl

/-- One unfolding of the specification-side record stream. -/
theorem fwutil.specRecords_succ (b : List Nat) (fuel : Nat) :
  fwutil.specRecords b (fuel + 1)
    = if b.length < 8 then []
      else
        if beU (b.take 4) = 0xffeeddcc then []
        else
          (beU (b.take 4), beU ((b.drop 4).take 4),
            (b.drop 8).take (4 * beU ((b.drop 4).take 4))) ::
            fwutil.specRecords (b.drop (8 + 4 * beU ((b.drop 4).take 4))) fuel := rfl

/-- C7 counterexample: the claim says, for every de-obfuscated firmware
buffer, the walk's address sequence equals that of the source records before
the sentinel and every emitted record carries 4 times its 32-bit word-length
field in data.  On a buffer holding one source record with word-length 256
(an allowed stream: nonzero prologue bytes 4..6 are warning-only, not
fatal) and 1024 zero data bytes, the walk reads only byte 7 of the field,
takes the record size as 0, emits the record with no data (not 4 x 256
bytes) and then desynchronises, walking the 1024 data bytes as 128 further
records at address 0: 129 addresses against the source's one. -/
theorem C7_cex :
  fwutil.specRecords fwutil.cexBuf fwutil.cexBuf.length
      = [(268435456, 256, List.replicate 1024 0)] ∧
  fwutil.walkRecords fwutil.cexBuf
      = .ok ((268435456, []) :: List.replicate 128 (0, [])) ∧
  ((268435456, ([] : List Nat)) :: List.replicate 128 ((0 : Nat), ([] : List Nat))).map
      Prod.fst ≠ [268435456] ∧
  (([] : List Nat)).length ≠ 4 * 256 := by
  have h0 : fwutil.encRec
      { addr := 268435456, len4 := 0, len5 := 0, len6 := 1, len7 := 0, data := [] }
      = [16, 0, 0, 0, 0, 0, 1, 0] := rfl
  have hbufeq : fwutil.cexBuf
      = ([16, 0, 0, 0, 0, 0, 1, 0] ++ List.replicate 1024 0)
        ++ ([255, 238, 221, 204] ++ ([0, 0, 0, 0] ++ ([] : List Nat))) := by
    rw [fwutil.cexBuf, fwutil.cexRecs, fwutil.encRecs, fwutil.encRecs_replicate_zero, h0]
    simp [fwutil.sentinelBlock, List.append_assoc]
  have hlen : fwutil.cexBuf.length = 1040 := by
    rw [hbufeq]
    simp
  have hwfall : ∀ r ∈ fwutil.cexRecs, r.WF := by
    intro r hr
    rcases List.mem_cons.mp hr with h | h
    · rw [h]; decide
    · rw [List.eq_of_mem_replicate h]; decide
  have hb2 : ([16, 0, 0, 0, 0, 0, 1, 0] ++ List.replicate 1024 (0 : Nat))
      ++ ([255, 238, 221, 204] ++ ([0, 0, 0, 0] ++ ([] : List Nat)))
      = [16, 0, 0, 0, 0, 0, 1, 0] ++ (List.replicate 1024 (0 : Nat)
        ++ ([255, 238, 221, 204] ++ ([0, 0, 0, 0] ++ ([] : List Nat)))) :=
    List.append_assoc _ _ _
  have ht4 : ((([16, 0, 0, 0, 0, 0, 1, 0] ++ List.replicate 1024 (0 : Nat))
      ++ ([255, 238, 221, 204] ++ ([0, 0, 0, 0] ++ ([] : List Nat)))).take 4)
      = [16, 0, 0, 0] := by
    rw [hb2]
    rfl
  have ht44 : (((([16, 0, 0, 0, 0, 0, 1, 0] ++ List.replicate 1024 (0 : Nat))
      ++ ([255, 238, 221, 204] ++ ([0, 0, 0, 0] ++ ([] : List Nat)))).drop 4).take 4)
      = [0, 0, 1, 0] := by
    rw [hb2]
    rfl
  refine ⟨?_, ?_, by decide, by decide⟩
  · rw [hlen, hbufeq]
    rw [show (1040 : Nat) = 1039 + 1 from rfl]
    rw [fwutil.specRecords_succ]
    rw [if_neg (by simp)]
    rw [ht4]
    rw [if_neg (by decide)]
    rw [ht44]
    have h256 : beU [0, 0, 1, 0] = 256 := rfl
    have haddr : beU [16, 0, 0, 0] = 268435456 := rfl
    rw [h256, haddr]
    have hdrop8 : ((([16, 0, 0, 0, 0, 0, 1, 0] ++ List.replicate 1024 (0 : Nat))
        ++ ([255, 238, 221, 204] ++ ([0, 0, 0, 0] ++ ([] : List Nat)))).drop 8)
        = List.replicate 1024 0 ++ ([255, 238, 221, 204] ++ ([0, 0, 0, 0] ++ ([] : List Nat))) := by
      rw [hb2]
      have h8l : (8 : Nat) = ([16, 0, 0, 0, 0, 0, 1, 0] : List Nat).length := rfl
      rw [h8l, List.drop_left]
    have htake : ((List.replicate 1024 (0 : Nat)
        ++ ([255, 238, 221, 204] ++ ([0, 0, 0, 0] ++ ([] : List Nat)))).take (4 * 256))
        = List.replicate 1024 0 := by
      have hl : (4 * 256 : Nat) = (List.replicate 1024 (0 : Nat)).length := by simp
      rw [hl]
      exact List.take_left _ _
    rw [hdrop8, htake]
    have hdrop1032 : ((([16, 0, 0, 0, 0, 0, 1, 0] ++ List.replicate 1024 (0 : Nat))
        ++ ([255, 238, 221, 204] ++ ([0, 0, 0, 0] ++ ([] : List Nat)))).drop (8 + 4 * 256))
        = [255, 238, 221, 204] ++ ([0, 0, 0, 0] ++ ([] : List Nat)) := by
      have hl : (8 + 4 * 256 : Nat)
          = ([16, 0, 0, 0, 0, 0, 1, 0] ++ List.replicate 1024 (0 : Nat)).length := by simp
      rw [hl, List.drop_left]
    rw [hdrop1032]
    rw [show (1039 : Nat) = 1038 + 1 from rfl]
    rw [fwutil.specRecords_succ]
    rw [if_neg (by simp)]
    have hts : (([255, 238, 221, 204] ++ ([0, 0, 0, 0] ++ ([] : List Nat))).take 4)
        = [255, 238, 221, 204] := rfl
    rw [hts]
    rw [if_pos (by decide)]
  · rw [fwutil.walkRecords, hlen]
    have h := fwutil.walkFrom_encRecs fwutil.cexRecs [] [0, 0, 0, 0] [] (1040 + 1)
      hwfall rfl (by simp [fwutil.cexRecs])
    have h2 : fwutil.walkFrom fwutil.cexBuf (1040 + 1) 0
        = .ok (fwutil.cexRecs.map (fun r => (r.addr, r.data))) := h
    rw [h2]
    rw [fwutil.cexRecs, List.map_cons, List.map_replicate]
    rfl

/-- C7 amended: for every de-obfuscated firmware buffer whose records are
well formed for the decoder - bytes 4..6 of each prologue zero and the last
word-length byte below 256, the case the decoder's reserved-area warning
marks as in spec (nonzero bytes there only produce a warning, after which
the decoder reads byte 7 alone as the word count and desynchronises) - the
record walk emits exactly the source records preceding the sentinel, with
the identical address sequence, and each emitted record's data is its
source data, of length exactly 4 times the record's 32-bit word-length
field. -/
theorem C7_walk_emits_source_records (recs : List fwutil.FwRec)
    (junk rest : List Nat) (hWF : ∀ r ∈ recs, r.WF ∧ r.Zeroed)
    (hj : junk.length = 4) :
  fwutil.walkRecords (fwutil.encRecs recs ++ (fwutil.sentinelBlock junk ++ rest))
      = .ok (recs.map (fun r => (r.addr, r.data))) ∧
  ∀ r ∈ recs, r.data.length = 4 * r.wordLen := by
  constructor
  · have hge := fwutil.encRecs_length_ge recs
    exact fwutil.walkFrom_encRecs recs [] junk rest
      ((fwutil.encRecs recs ++ (fwutil.sentinelBlock junk ++ rest)).length + 1)
      (fun r hr => (hWF r hr).1) hj (by simp [fwutil.sentinelBlock]; omega)
  · intro r hr
    obtain ⟨⟨_, _, hd⟩, hz⟩ := hWF r hr
    rw [fwutil.FwRec.wordLen, hz.1, hz.2.1, hz.2.2.1]
    simp [beU]
    omega

/-- C7 witness: the amended walk law applied to one concrete record. -/
theorem C7_walk_emits_source_records_witness :
  fwutil.walkRecords (fwutil.encRecs
      [{ addr := 1, len4 := 0, len5 := 0, len6 := 0, len7 := 1, data := [9, 9, 9, 9] }]
      ++ (fwutil.sentinelBlock [0, 0, 0, 0] ++ []))
    = .ok [(1, [9, 9, 9, 9])] :=
  (C7_walk_emits_source_records
    [{ addr := 1, len4 := 0, len5 := 0, len6 := 0, len7 := 1, data := [9, 9, 9, 9] }]
    [0, 0, 0, 0] [] (by decide) rfl).1

/-- C8: the claim says a pack whose count N satisfies 32*N at least 512 as
an unbounded-integer inequality must be rejected before the metadata scan.
The source computes numberOfFirmwares*32 in uint32 arithmetic: for N = 2^27
the product wraps to 0, the check passes and the decoder proceeds to scan
metadata slots. -/
theorem C8_count_overflow :
  fwutil.cexHeader.length = 512 ∧
  fwutil.numberOfFirmwares fwutil.cexHeader = 134217728 ∧
  512 ≤ 32 * fwutil.numberOfFirmwares fwutil.cexHeader ∧
  fwutil.tooManyFirmwares fwutil.cexHeader = false := by
  have hlen : fwutil.cexHeader.length = 512 := by
    simp [fwutil.cexHeader]
  have hn : fwutil.numberOfFirmwares fwutil.cexHeader = 134217728 := rfl
  refine ⟨hlen, hn, by rw [hn]; norm_num, ?_⟩
  unfold fwutil.tooManyFirmwares
  rw [hn, hlen]
  decide

/-- C10: operational message marshalling never returns an error - for every
message, including one whose payload exceeds 65535 bytes, MarshalBinary
succeeds and the 16-bit length field (bytes 5..7 of the frame) holds the
payload byte count reduced modulo 2^16 - while the bootloader marshal
rejects any payload too large for the 16-bit field with an error. -/
theorem C10_marshal_totality :
  (∀ m : ebm.Message, ebm.Message.MarshalBinary m = .ok (ebm.Message.wire m) ∧
      beU (((ebm.Message.wire m).drop 5).take 2) = m.Payload.length % 65536) ∧
  (∀ m : bootloader.message,
      ((bootloader.message.MarshalBinary m).isErr = true ↔ 65536 ≤ m.Payload.length)) := by
  constructor
  · intro m
    refine ⟨rfl, ?_⟩
    have hw : ((ebm.Message.wire m).drop 5).take 2 = be16 m.Payload.length := rfl
    rw [hw, beU_be16]
  · intro m
    unfold bootloader.message.MarshalBinary
    split_ifs with h
    · simp [GoResult.isErr]
      omega
    · simp [GoResult.isErr]
      omega

/-- C10 witness: a 65536-byte payload is rejected by the bootloader marshal
and accepted by the operational marshal. -/
theorem C10_marshal_totality_witness :
  (bootloader.message.MarshalBinary
      { SequenceNumber := 0, Ty := 18, Payload := List.replicate 65536 0 }).isErr = true ∧
  ebm.Message.MarshalBinary
      { Ty := 6, SequenceNumber := 2, Status := 255, Payload := List.replicate 65536 0 }
    = .ok (ebm.Message.wire
      { Ty := 6, SequenceNumber := 2, Status := 255, Payload := List.replicate 65536 0 }) :=
  ⟨(C10_marshal_totality.2 _).mpr (by simp only [List.length_replicate]; omega),
   (C10_marshal_totality.1 _).1⟩
